import Mathlib

/-!
Verification development for the `window-messing` repository
(`src/main.rs`): a single-window software renderer that fills a pixel
buffer black, paints a green overlay on every pixel whose world
coordinate lies within 100 pixels of a monitor edge, and stamps a fixed
hidden text message with 5x8 bitmap glyphs scaled by 3 at a far
off-screen anchor.

The embedding models machine integers explicitly:
* Rust `i32` arithmetic is modelled on `Int` with `wrap32` (twos-
  complement wrap-around at `2^31`), matching release-mode semantics;
* Rust `u32` arithmetic is modelled on `Nat` with reduction `% 2^32`;
* the pixel buffer is a `List Nat` of packed 32-bit colors, and
  `buffer[idx] = c` at a checked index becomes `List.set`.
-/

/-- Twos-complement wrap-around of an `Int` into the `i32` range
`[-2^31, 2^31)`, the release-mode semantics of Rust `i32` arithmetic. -/
def wrap32 (n : Int) : Int := (n + 2 ^ 31) % 2 ^ 32 - 2 ^ 31

/-- The Rust cast `u32 as i32` (twos-complement reinterpretation). -/
def u32AsI32 (n : Nat) : Int := wrap32 n

/-- Model of `const fn index_u8` from `src/main.rs`: scan `arr` from index `0`
upward and return the first index holding `element`, or `None`. -/
def index_u8 (arr : List Nat) (element : Nat) : Option Nat :=
  match arr with
  | [] => none
  | a :: rest => if a = element then some 0 else (index_u8 rest element).map (· + 1)

/-- Model of `const fn string_to_bytes` from `src/main.rs`: if the byte string
`s` has length `n`, return its byte array, otherwise `None`. -/
def string_to_bytes (s : List Nat) (n : Nat) : Option (List Nat) :=
  if s.length = n then some s else none

/-- Model of `LETTER_DATA` from `src/main.rs`: the 56 supported byte values, in
table order (uppercase A-Z, lowercase a-z, then `{`, `}`, `_`, space). -/
def letter_data : List Nat :=
  [65, 66, 67, 68, 69, 70, 71, 72, 73, 74, 75, 76, 77,
   78, 79, 80, 81, 82, 83, 84, 85, 86, 87, 88, 89, 90,
   97, 98, 99, 100, 101, 102, 103, 104, 105, 106, 107, 108, 109,
   110, 111, 112, 113, 114, 115, 116, 117, 118, 119, 120, 121, 122,
   123, 125, 95, 32]

/-- A glyph is an 8-row by 5-column grid of ink cells. -/
abbrev Glyph := List (List Bool)

/-- The all-blank glyph (used only as an out-of-range lookup default;
every actual lookup index is in range). -/
def blank_glyph : Glyph :=
  [[false, false, false, false, false],
   [false, false, false, false, false],
   [false, false, false, false, false],
   [false, false, false, false, false],
   [false, false, false, false, false],
   [false, false, false, false, false],
   [false, false, false, false, false],
   [false, false, false, false, false]]
def font_data : List (List (List Bool)) := [
  [
    [false, true, true, true, false],
    [true, false, false, false, true],
    [true, false, false, false, true],
    [true, false, false, false, true],
    [true, true, true, true, true],
    [true, false, false, false, true],
    [true, false, false, false, true],
    [false, false, false, false, false]
  ],
  [
    [true, true, true, true, false],
    [true, false, false, false, true],
    [true, false, false, false, true],
    [true, true, true, true, false],
    [true, false, false, false, true],
    [true, false, false, false, true],
    [true, true, true, true, false],
    [false, false, false, false, false]
  ],
  [
    [false, true, true, true, false],
    [true, false, false, false, true],
    [true, false, false, false, false],
    [true, false, false, false, false],
    [true, false, false, false, false],
    [true, false, false, false, true],
    [false, true, true, true, false],
    [false, false, false, false, false]
  ],
  [
    [true, true, true, false, false],
    [true, false, false, true, false],
    [true, false, false, false, true],
    [true, false, false, false, true],
    [true, false, false, false, true],
    [true, false, false, true, false],
    [true, true, true, false, false],
    [false, false, false, false, false]
  ],
  [
    [true, true, true, true, true],
    [true, false, false, false, false],
    [true, false, false, false, false],
    [true, true, true, true, false],
    [true, false, false, false, false],
    [true, false, false, false, false],
    [true, true, true, true, true],
    [false, false, false, false, false]
  ],
  [
    [true, true, true, true, true],
    [true, false, false, false, false],
    [true, false, false, false, false],
    [true, true, true, true, false],
    [true, false, false, false, false],
    [true, false, false, false, false],
    [true, false, false, false, false],
    [false, false, false, false, false]
  ],
  [
    [false, true, true, true, false],
    [true, false, false, false, true],
    [true, false, false, false, false],
    [true, false, true, true, true],
    [true, false, false, false, true],
    [true, false, false, false, true],
    [false, true, true, true, false],
    [false, false, false, false, false]
  ],
  [
    [true, false, false, false, true],
    [true, false, false, false, true],
    [true, false, false, false, true],
    [true, true, true, true, true],
    [true, false, false, false, true],
    [true, false, false, false, true],
    [true, false, false, false, true],
    [false, false, false, false, false]
  ],
  [
    [false, true, true, true, false],
    [false, false, true, false, false],
    [false, false, true, false, false],
    [false, false, true, false, false],
    [false, false, true, false, false],
    [false, false, true, false, false],
    [false, true, true, true, false],
    [false, false, false, false, false]
  ],
  [
    [false, false, false, false, true],
    [false, false, false, false, true],
    [false, false, false, false, true],
    [false, false, false, false, true],
    [false, false, false, false, true],
    [true, false, false, false, true],
    [false, true, true, true, false],
    [false, false, false, false, false]
  ],
  [
    [true, false, false, false, true],
    [true, false, false, true, false],
    [true, false, true, false, false],
    [true, true, false, false, false],
    [true, false, true, false, false],
    [true, false, false, true, false],
    [true, false, false, false, true],
    [false, false, false, false, false]
  ],
  [
    [true, false, false, false, false],
    [true, false, false, false, false],
    [true, false, false, false, false],
    [true, false, false, false, false],
    [true, false, false, false, false],
    [true, false, false, false, false],
    [true, true, true, true, true],
    [false, false, false, false, false]
  ],
  [
    [true, false, false, false, true],
    [true, true, false, true, true],
    [true, false, true, false, true],
    [true, false, false, false, true],
    [true, false, false, false, true],
    [true, false, false, false, true],
    [true, false, false, false, true],
    [false, false, false, false, false]
  ],
  [
    [true, false, false, false, true],
    [true, true, false, false, true],
    [true, false, true, false, true],
    [true, false, false, true, true],
    [true, false, false, false, true],
    [true, false, false, false, true],
    [true, false, false, false, true],
    [false, false, false, false, false]
  ],
  [
    [false, true, true, true, false],
    [true, false, false, false, true],
    [true, false, false, false, true],
    [true, false, false, false, true],
    [true, false, false, false, true],
    [true, false, false, false, true],
    [false, true, true, true, false],
    [false, false, false, false, false]
  ],
  [
    [true, true, true, true, false],
    [true, false, false, false, true],
    [true, false, false, false, true],
    [true, true, true, true, false],
    [true, false, false, false, false],
    [true, false, false, false, false],
    [true, false, false, false, false],
    [false, false, false, false, false]
  ],
  [
    [false, true, true, true, false],
    [true, false, false, false, true],
    [true, false, false, false, true],
    [true, false, false, false, true],
    [true, false, true, false, true],
    [true, false, false, true, false],
    [false, true, true, false, true],
    [false, false, false, false, false]
  ],
  [
    [true, true, true, true, false],
    [true, false, false, false, true],
    [true, false, false, false, true],
    [true, true, true, true, false],
    [true, false, true, false, false],
    [true, false, false, true, false],
    [true, false, false, false, true],
    [false, false, false, false, false]
  ],
  [
    [false, true, true, true, false],
    [true, false, false, false, true],
    [true, false, false, false, false],
    [false, true, true, true, false],
    [false, false, false, false, true],
    [true, false, false, false, true],
    [false, true, true, true, false],
    [false, false, false, false, false]
  ],
  [
    [true, true, true, true, true],
    [false, false, true, false, false],
    [false, false, true, false, false],
    [false, false, true, false, false],
    [false, false, true, false, false],
    [false, false, true, false, false],
    [false, false, true, false, false],
    [false, false, false, false, false]
  ],
  [
    [true, false, false, false, true],
    [true, false, false, false, true],
    [true, false, false, false, true],
    [true, false, false, false, true],
    [true, false, false, false, true],
    [true, false, false, false, true],
    [false, true, true, true, false],
    [false, false, false, false, false]
  ],
  [
    [true, false, false, false, true],
    [true, false, false, false, true],
    [true, false, false, false, true],
    [true, false, false, false, true],
    [false, true, false, true, false],
    [false, true, false, true, false],
    [false, false, true, false, false],
    [false, false, false, false, false]
  ],
  [
    [true, false, false, false, true],
    [true, false, false, false, true],
    [true, false, false, false, true],
    [true, false, true, false, true],
    [true, false, true, false, true],
    [true, true, false, true, true],
    [true, false, false, false, true],
    [false, false, false, false, false]
  ],
  [
    [true, false, false, false, true],
    [false, true, false, true, false],
    [false, false, true, false, false],
    [false, false, true, false, false],
    [false, false, true, false, false],
    [false, true, false, true, false],
    [true, false, false, false, true],
    [false, false, false, false, false]
  ],
  [
    [true, false, false, false, true],
    [false, true, false, true, false],
    [false, false, true, false, false],
    [false, false, true, false, false],
    [false, false, true, false, false],
    [false, false, true, false, false],
    [false, false, true, false, false],
    [false, false, false, false, false]
  ],
  [
    [true, true, true, true, true],
    [false, false, false, false, true],
    [false, false, false, true, false],
    [false, false, true, false, false],
    [false, true, false, false, false],
    [true, false, false, false, false],
    [true, true, true, true, true],
    [false, false, false, false, false]
  ],
  [
    [false, false, false, false, false],
    [false, false, false, false, false],
    [false, true, true, true, false],
    [false, false, false, false, true],
    [false, true, true, true, true],
    [true, false, false, false, true],
    [false, true, true, true, true],
    [false, false, false, false, false]
  ],
  [
    [true, false, false, false, false],
    [true, false, false, false, false],
    [true, true, true, true, false],
    [true, false, false, false, true],
    [true, false, false, false, true],
    [true, false, false, false, true],
    [true, true, true, true, false],
    [false, false, false, false, false]
  ],
  [
    [false, false, false, false, false],
    [false, false, false, false, false],
    [false, true, true, true, false],
    [true, false, false, false, true],
    [true, false, false, false, false],
    [true, false, false, false, true],
    [false, true, true, true, false],
    [false, false, false, false, false]
  ],
  [
    [false, false, false, false, true],
    [false, false, false, false, true],
    [false, true, true, true, true],
    [true, false, false, false, true],
    [true, false, false, false, true],
    [true, false, false, false, true],
    [false, true, true, true, true],
    [false, false, false, false, false]
  ],
  [
    [false, false, false, false, false],
    [false, false, false, false, false],
    [false, true, true, true, false],
    [true, false, false, false, true],
    [true, true, true, true, true],
    [true, false, false, false, false],
    [false, true, true, true, false],
    [false, false, false, false, false]
  ],
  [
    [false, false, true, true, false],
    [false, true, false, false, true],
    [false, true, false, false, false],
    [true, true, true, false, false],
    [false, true, false, false, false],
    [false, true, false, false, false],
    [false, true, false, false, false],
    [false, false, false, false, false]
  ],
  [
    [false, false, false, false, false],
    [false, false, false, false, false],
    [false, true, true, true, true],
    [true, false, false, false, true],
    [true, false, false, false, true],
    [false, true, true, true, true],
    [false, false, false, false, true],
    [false, true, true, true, false]
  ],
  [
    [true, false, false, false, false],
    [true, false, false, false, false],
    [true, true, true, true, false],
    [true, false, false, false, true],
    [true, false, false, false, true],
    [true, false, false, false, true],
    [true, false, false, false, true],
    [false, false, false, false, false]
  ],
  [
    [false, false, true, false, false],
    [false, false, false, false, false],
    [false, true, true, false, false],
    [false, false, true, false, false],
    [false, false, true, false, false],
    [false, false, true, false, false],
    [false, true, true, true, false],
    [false, false, false, false, false]
  ],
  [
    [false, false, false, true, false],
    [false, false, false, false, false],
    [false, false, true, true, false],
    [false, false, false, true, false],
    [false, false, false, true, false],
    [false, false, false, true, false],
    [true, false, false, true, false],
    [false, true, true, false, false]
  ],
  [
    [true, false, false, false, false],
    [true, false, false, false, false],
    [true, false, false, true, false],
    [true, false, true, false, false],
    [true, true, false, false, false],
    [true, false, true, false, false],
    [true, false, false, true, false],
    [false, false, false, false, false]
  ],
  [
    [false, true, true, false, false],
    [false, false, true, false, false],
    [false, false, true, false, false],
    [false, false, true, false, false],
    [false, false, true, false, false],
    [false, false, true, false, false],
    [false, true, true, true, false],
    [false, false, false, false, false]
  ],
  [
    [false, false, false, false, false],
    [false, false, false, false, false],
    [true, true, false, true, false],
    [true, false, true, false, true],
    [true, false, true, false, true],
    [true, false, true, false, true],
    [true, false, true, false, true],
    [false, false, false, false, false]
  ],
  [
    [false, false, false, false, false],
    [false, false, false, false, false],
    [true, true, true, true, false],
    [true, false, false, false, true],
    [true, false, false, false, true],
    [true, false, false, false, true],
    [true, false, false, false, true],
    [false, false, false, false, false]
  ],
  [
    [false, false, false, false, false],
    [false, false, false, false, false],
    [false, true, true, true, false],
    [true, false, false, false, true],
    [true, false, false, false, true],
    [true, false, false, false, true],
    [false, true, true, true, false],
    [false, false, false, false, false]
  ],
  [
    [false, false, false, false, false],
    [false, false, false, false, false],
    [true, true, true, true, false],
    [true, false, false, false, true],
    [true, false, false, false, true],
    [true, true, true, true, false],
    [true, false, false, false, false],
    [true, false, false, false, false]
  ],
  [
    [false, false, false, false, false],
    [false, false, false, false, false],
    [false, true, true, true, true],
    [true, false, false, false, true],
    [true, false, false, false, true],
    [false, true, true, true, true],
    [false, false, false, false, true],
    [false, false, false, false, true]
  ],
  [
    [false, false, false, false, false],
    [false, false, false, false, false],
    [true, false, true, true, false],
    [true, true, false, false, true],
    [true, false, false, false, false],
    [true, false, false, false, false],
    [true, false, false, false, false],
    [false, false, false, false, false]
  ],
  [
    [false, false, false, false, false],
    [false, false, false, false, false],
    [false, true, true, true, false],
    [true, false, false, false, false],
    [false, true, true, true, false],
    [false, false, false, false, true],
    [true, true, true, true, false],
    [false, false, false, false, false]
  ],
  [
    [false, true, false, false, false],
    [false, true, false, false, false],
    [true, true, true, false, false],
    [false, true, false, false, false],
    [false, true, false, false, false],
    [false, true, false, false, true],
    [false, false, true, true, false],
    [false, false, false, false, false]
  ],
  [
    [false, false, false, false, false],
    [false, false, false, false, false],
    [true, false, false, false, true],
    [true, false, false, false, true],
    [true, false, false, false, true],
    [true, false, false, false, true],
    [false, true, true, true, true],
    [false, false, false, false, false]
  ],
  [
    [false, false, false, false, false],
    [false, false, false, false, false],
    [true, false, false, false, true],
    [true, false, false, false, true],
    [false, true, false, true, false],
    [false, true, false, true, false],
    [false, false, true, false, false],
    [false, false, false, false, false]
  ],
  [
    [false, false, false, false, false],
    [false, false, false, false, false],
    [true, false, false, false, true],
    [true, false, true, false, true],
    [true, false, true, false, true],
    [true, false, true, false, true],
    [false, true, false, true, false],
    [false, false, false, false, false]
  ],
  [
    [false, false, false, false, false],
    [false, false, false, false, false],
    [true, false, false, false, true],
    [false, true, false, true, false],
    [false, false, true, false, false],
    [false, true, false, true, false],
    [true, false, false, false, true],
    [false, false, false, false, false]
  ],
  [
    [false, false, false, false, false],
    [false, false, false, false, false],
    [true, false, false, false, true],
    [true, false, false, false, true],
    [true, false, false, false, true],
    [false, true, true, true, true],
    [false, false, false, false, true],
    [false, true, true, true, false]
  ],
  [
    [false, false, false, false, false],
    [false, false, false, false, false],
    [true, true, true, true, true],
    [false, false, false, true, false],
    [false, false, true, false, false],
    [false, true, false, false, false],
    [true, true, true, true, true],
    [false, false, false, false, false]
  ],
  [
    [false, false, true, true, false],
    [false, true, false, false, false],
    [false, true, false, false, false],
    [true, false, false, false, false],
    [false, true, false, false, false],
    [false, true, false, false, false],
    [false, false, true, true, false],
    [false, false, false, false, false]
  ],
  [
    [false, true, true, false, false],
    [false, false, false, true, false],
    [false, false, false, true, false],
    [false, false, false, false, true],
    [false, false, false, true, false],
    [false, false, false, true, false],
    [false, true, true, false, false],
    [false, false, false, false, false]
  ],
  [
    [false, false, false, false, false],
    [false, false, false, false, false],
    [false, false, false, false, false],
    [false, false, false, false, false],
    [false, false, false, false, false],
    [false, false, false, false, false],
    [true, true, true, true, true],
    [false, false, false, false, false]
  ],
  [
    [false, false, false, false, false],
    [false, false, false, false, false],
    [false, false, false, false, false],
    [false, false, false, false, false],
    [false, false, false, false, false],
    [false, false, false, false, false],
    [false, false, false, false, false],
    [false, false, false, false, false]
  ]
]

/-- Model of `text_to_bitmap` from `src/main.rs`: map each byte of the message
to its glyph via `index_u8` into `letter_data`; if any byte is not in
the table the whole conversion returns `None`. -/
def text_to_bitmap (text : List Nat) : Option (List Glyph) :=
  match text with
  | [] => some []
  | c :: rest =>
    match index_u8 letter_data c with
    | some char_index =>
      match text_to_bitmap rest with
      | some gs => some (font_data.getD char_index blank_glyph :: gs)
      | none => none
    | none => none

/-- The message string literal from `src/main.rs`. -/
def message_string : String := "ictf\x7bTeeheehee_you_found_me\x7d"

/-- The bytes of the message string (all characters are ASCII). -/
def message_bytes : List Nat := message_string.data.map Char.toNat

/-- Model of `TEXT_SOURCE` from `src/main.rs`: `string_to_bytes("ictf...").unwrap()`
with `N = 28` (`LEN`). -/
def text_source : List Nat := (string_to_bytes message_bytes 28).getD []

/-- Model of `TEXT_BITMAPS` from `src/main.rs`: `text_to_bitmap(&TEXT_SOURCE).unwrap()`. -/
def text_bitmaps : List Glyph := (text_to_bitmap text_source).getD []

/-- Packed-color constant: opaque black background. -/
def BLACK : Nat := 0xFF000000

/-- Packed-color constant: opaque green boundary overlay. -/
def GREEN : Nat := 0xFF00FF00

/-- Packed-color constant: opaque white glyph ink. -/
def WHITE : Nat := 0xFFFFFFFF

/-- Model of `App::draw_char` from `src/main.rs`: for every ink cell of the 5x8
glyph, paint a `scale x scale` block at the scaled offset from `(x, y)`.
`i32` arithmetic wraps via `wrap32`; the index computation
`py as u32 * buffer_width + px as u32` is `u32` arithmetic and reduces
modulo `2^32`; the guarded `buffer[idx] = ...` becomes `List.set`. -/
def draw_char (buffer : List Nat) (x y : Int) (char_data : Glyph)
    (buffer_width : Nat) (scale : Int) : List Nat :=
  char_data.enum.foldl (fun bufRow rl =>
    rl.2.enum.foldl (fun bufCol cp =>
      if cp.2 then
        (List.range scale.toNat).foldl (fun bufDy (dy : Nat) =>
          (List.range scale.toNat).foldl (fun bufDx (dx : Nat) =>
            let px := wrap32 (wrap32 (x + wrap32 ((cp.1 : Int) * scale)) + (dx : Int))
            let py := wrap32 (wrap32 (y + wrap32 ((rl.1 : Int) * scale)) + (dy : Int))
            if 0 ≤ px ∧ 0 ≤ py ∧ px < u32AsI32 buffer_width then
              let idx := (py.toNat * buffer_width % 2 ^ 32 + px.toNat) % 2 ^ 32
              if idx < bufDx.length then bufDx.set idx 0xFFFFFFFF else bufDx
            else bufDx) bufDy) bufCol
      else bufCol) bufRow) buffer

/-- The loop body of `App::draw_text` from `src/main.rs`: draw each
glyph of the list at `x + offset_x`, advancing `offset_x` by
`6 * SCALE = 18` per character (`SCALE = 3`). -/
def draw_chars (buffer : List Nat) (x y : Int) (buffer_width : Nat)
    (offset_x : Int) : List Glyph → List Nat
  | [] => buffer
  | cd :: rest =>
    draw_chars (draw_char buffer (wrap32 (x + offset_x)) y cd buffer_width 3)
      x y buffer_width (wrap32 (offset_x + 6 * 3)) rest

/-- Model of `App::draw_text` from `src/main.rs`: draw `TEXT_BITMAPS` starting
at `(x, y)` with initial `offset_x = 0`. -/
def draw_text (buffer : List Nat) (x y : Int) (buffer_width : Nat) : List Nat :=
  draw_chars buffer x y buffer_width 0 text_bitmaps

/-- The background-fill pass of `App::redraw`: set every pixel to
opaque black. -/
def fill_black (buffer : List Nat) : List Nat :=
  buffer.map (fun _ => 0xFF000000)

/-- The per-pixel boundary test of `App::redraw`: `draw_green` is set
when any of the four edge conditions holds for the world coordinate of
window-local pixel `(x, y)` (`BOUNDARY_SIZE = 100`). -/
def green_cond (px py : Int) (mw mh : Nat) (x y : Nat) : Bool :=
  let world_x := wrap32 (px + u32AsI32 x)
  let world_y := wrap32 (py + u32AsI32 y)
  decide (world_x < 100) || decide (wrap32 (u32AsI32 mw - 100) ≤ world_x) ||
  decide (world_y < 100) || decide (wrap32 (u32AsI32 mh - 100) ≤ world_y)

/-- The boundary-overlay pass of `App::redraw`: for every `(x, y)` of
the window, write green at `idx = y * width + x` (`u32` arithmetic)
when `green_cond` holds. -/
def overlay (buffer : List Nat) (width height : Nat) (px py : Int)
    (mw mh : Nat) : List Nat :=
  (List.range height).foldl (fun bufY y =>
    (List.range width).foldl (fun bufX x =>
      if green_cond px py mw mh x y then
        bufX.set ((y * width % 2 ^ 32 + x) % 2 ^ 32) 0xFF00FF00
      else bufX) bufY) buffer

/-- Model of `off_screen_x` from `App::redraw`: `monitor_width / 2` in `i32`
(truncating division of the cast monitor width). -/
def off_screen_x (mw : Nat) : Int := Int.tdiv (u32AsI32 mw) 2

/-- Model of `off_screen_y` from `App::redraw`: `-(monitor_height as i32) - 1000`. -/
def off_screen_y (mh : Nat) : Int := wrap32 (wrap32 (-(u32AsI32 mh)) - 1000)

/-- The text-placement step of `App::redraw`: window-local draw origin
`(text_x, text_y) = (off_screen_x - pos.x, off_screen_y - pos.y)`. -/
def text_origin (px py : Int) (mw mh : Nat) : Int × Int :=
  (wrap32 (off_screen_x mw - px), wrap32 (off_screen_y mh - py))

/-- Model of `App::redraw` from `src/main.rs` (the frame computation on the
acquired buffer): background fill, boundary overlay, then text at the
off-screen anchor. `(px, py)` is the window position, `(mw, mh)` the
monitor size. -/
def redraw (buffer : List Nat) (width height : Nat) (px py : Int)
    (mw mh : Nat) : List Nat :=
  draw_text (overlay (fill_black buffer) width height px py mw mh)
    (text_origin px py mw mh).1 (text_origin px py mw mh).2 width

/-- Candidate pixel x-coordinate of `draw_char` at scale 3:
`x + col * 3 + dx` with `i32` wrap-around at each step. -/
def cand_px (x : Int) (col dx : Nat) : Int :=
  wrap32 (wrap32 (x + wrap32 ((col : Int) * 3)) + (dx : Int))

/-- Candidate pixel y-coordinate of `draw_char` at scale 3:
`y + row * 3 + dy` with `i32` wrap-around at each step. -/
def cand_py (y : Int) (row dy : Nat) : Int :=
  wrap32 (wrap32 (y + wrap32 ((row : Int) * 3)) + (dy : Int))

/-- The flattened iteration space of `draw_char` at scale 3: tuples
`(row, col, ink, dy, dx)` in loop order. -/
def char_candidates (cd : Glyph) : List (Nat × Nat × Bool × Nat × Nat) :=
  cd.enum.flatMap (fun rl =>
    rl.2.enum.flatMap (fun cp =>
      (List.range 3).flatMap (fun dy =>
        (List.range 3).map (fun dx => (rl.1, cp.1, cp.2, dy, dx)))))

/-- The write guard of `draw_char` at scale 3 for a candidate tuple:
the cell is ink and `px >= 0 && py >= 0 && px < buffer_width as i32`. -/
def cand_q (x y : Int) (w : Nat) (t : Nat × Nat × Bool × Nat × Nat) : Bool :=
  t.2.2.1 &&
    (decide (0 ≤ cand_px x t.2.1 t.2.2.2.2) &&
     decide (0 ≤ cand_py y t.1 t.2.2.2.1) &&
     decide (cand_px x t.2.1 t.2.2.2.2 < u32AsI32 w))

/-- The buffer index `draw_char` computes for a candidate tuple:
`py as u32 * buffer_width + px as u32`, `u32` arithmetic. -/
def cand_g (x y : Int) (w : Nat) (t : Nat × Nat × Bool × Nat × Nat) : Nat :=
  ((cand_py y t.1 t.2.2.2.1).toNat * w % 2 ^ 32 +
    (cand_px x t.2.1 t.2.2.2.2).toNat) % 2 ^ 32

/-- Predicate: `draw_char` at origin `(x, y)` writes buffer index `k`: some
candidate passes the guard and its computed index is `k`. -/
def glyph_writes (x y : Int) (cd : Glyph) (w k : Nat) : Prop :=
  ∃ t ∈ char_candidates cd, cand_q x y w t = true ∧ cand_g x y w t = k

instance glyph_writes_decidable (x y : Int) (cd : Glyph) (w k : Nat) :
    Decidable (glyph_writes x y cd w k) := by
  unfold glyph_writes
  infer_instance

/-- The text pass starting at `(x, y)` writes buffer index `k`: the
`i`-th glyph of `TEXT_BITMAPS` (drawn at `x + 18 * i`) writes `k`. -/
def text_writes (x y : Int) (w k : Nat) : Prop :=
  ∃ i < text_bitmaps.length,
    glyph_writes (wrap32 (x + 18 * (i : Int))) y (text_bitmaps.getD i blank_glyph) w k

instance text_writes_decidable (x y : Int) (w k : Nat) :
    Decidable (text_writes x y w k) := by
  unfold text_writes
  infer_instance

/-- Spec-side notion for C1, in exact (non-wrapping) arithmetic: some
ink cell of the rendered message, placed at text origin `(tx, ty)` with
scale 3 and per-character advance 18, covers window-local pixel `(x, y)`. -/
def covers_pixel (tx ty : Int) (x y : Nat) : Prop :=
  ∃ i < text_bitmaps.length, ∃ row < 8, ∃ col < 5,
    ∃ (dy : Nat), dy < 3 ∧ ∃ (dx : Nat), dx < 3 ∧
      ((text_bitmaps.getD i blank_glyph).getD row []).getD col false = true ∧
      tx + 18 * (i : Int) + 3 * (col : Int) + (dx : Int) = (x : Int) ∧
      ty + 3 * (row : Int) + (dy : Int) = (y : Int)

instance covers_pixel_decidable (tx ty : Int) (x y : Nat) :
    Decidable (covers_pixel tx ty x y) := by
  unfold covers_pixel
  infer_instance

/-- Spec-side boundary condition for C1/C6, in exact arithmetic: the
world coordinate `(wx, wy)` is within 100 pixels of a monitor edge. -/
def boundary_cond (wx wy : Int) (mw mh : Nat) : Prop :=
  wx < 100 ∨ (mw : Int) - 100 ≤ wx ∨ wy < 100 ∨ (mh : Int) - 100 ≤ wy

instance boundary_cond_decidable (wx wy : Int) (mw mh : Nat) :
    Decidable (boundary_cond wx wy mw mh) := by
  unfold boundary_cond
  infer_instance

/-- The 56-character supported set as the claims describe it: A-Z, a-z,
and the specials `{`, `}`, `_`, space (byte values). -/
def supported_byte (b : Nat) : Prop :=
  (65 ≤ b ∧ b ≤ 90) ∨ (97 ≤ b ∧ b ≤ 122) ∨ b = 123 ∨ b = 125 ∨ b = 95 ∨ b = 32

instance supported_byte_decidable (b : Nat) : Decidable (supported_byte b) := by
  unfold supported_byte
  infer_instance

/-- A test glyph with a single ink cell at row 0, column 0, used to
exhibit the `u32` wrap-around of the index computation in `draw_char`. -/
def probe_glyph : Glyph :=
  [[true, false, false, false, false],
   [false, false, false, false, false],
   [false, false, false, false, false],
   [false, false, false, false, false],
   [false, false, false, false, false],
   [false, false, false, false, false],
   [false, false, false, false, false],
   [false, false, false, false, false]]

/-- Generic shape of every write loop of the renderer: walk a list of
loop items, and for each item passing guard `q` write the single color
`v` at index `g i` (out-of-range `List.set` is a no-op). -/
def setIfFold {α : Type} (q : α → Bool) (g : α → Nat) (v : Nat)
    (b : List Nat) (l : List α) : List Nat :=
  l.foldl (fun acc i => if q i then acc.set (g i) v else acc) b

/-- The iteration space of the overlay pass: all `(y, x)` with
`y < height`, `x < width`, in loop order. -/
def pix_list (width height : Nat) : List (Nat × Nat) :=
  (List.range height).flatMap (fun y => (List.range width).map (fun x => (y, x)))

theorem wrap32_lb (n : Int) : -(2 ^ 31) ≤ wrap32 n := by
  unfold wrap32; omega

theorem wrap32_ub (n : Int) : wrap32 n < 2 ^ 31 := by
  unfold wrap32; omega

theorem wrap32_eq_self {n : Int} (h1 : -(2 ^ 31) ≤ n) (h2 : n < 2 ^ 31) :
    wrap32 n = n := by
  unfold wrap32; omega

theorem wrap32_add_left (a b : Int) : wrap32 (wrap32 a + b) = wrap32 (a + b) := by
  unfold wrap32; omega

theorem wrap32_add_right (a b : Int) : wrap32 (a + wrap32 b) = wrap32 (a + b) := by
  unfold wrap32; omega

theorem wrap32_add_mid (a b c : Int) :
    wrap32 (a + wrap32 b + c) = wrap32 (a + b + c) := by
  unfold wrap32; omega

theorem foldl_flatMap {α β γ : Type} (l : List α) (g : α → List β)
    (f : γ → β → γ) (b : γ) :
    (l.flatMap g).foldl f b = l.foldl (fun acc a => (g a).foldl f acc) b := by
  induction l generalizing b with
  | nil => rfl
  | cons a l ih => simp [List.flatMap_cons, List.foldl_append, ih]

theorem foldl_id {α β : Type} (l : List α) (b : β) :
    l.foldl (fun acc _ => acc) b = b := by
  induction l <;> simp_all

theorem setIfFold_length {α : Type} (q : α → Bool) (g : α → Nat) (v : Nat)
    (b : List Nat) (l : List α) : (setIfFold q g v b l).length = b.length := by
  induction l generalizing b with
  | nil => rfl
  | cons a l ih =>
    rw [show setIfFold q g v b (a :: l)
        = setIfFold q g v (if q a then b.set (g a) v else b) l from rfl, ih]
    split <;> simp

theorem setIfFold_getElem {α : Type} (q : α → Bool) (g : α → Nat) (v : Nat)
    (b : List Nat) (l : List α) (k : Nat) :
    (setIfFold q g v b l)[k]? =
      if (∃ i ∈ l, q i = true ∧ g i = k) ∧ k < b.length then some v
      else b[k]? := by
  induction l generalizing b with
  | nil => simp [setIfFold]
  | cons a l ih =>
    rw [show setIfFold q g v b (a :: l)
        = setIfFold q g v (if q a then b.set (g a) v else b) l from rfl, ih]
    by_cases hq : q a = true
    · by_cases hg : g a = k
      · subst hg
        by_cases hk : g a < b.length
        · simp only [hq, if_true, List.length_set]
          rw [if_pos (⟨⟨a, List.mem_cons_self a l, hq, rfl⟩, hk⟩ :
            (∃ i ∈ a :: l, q i = true ∧ g i = g a) ∧ g a < b.length)]
          split
          · rfl
          · exact List.getElem?_set_eq_of_lt v hk
        · simp only [hq, if_true, List.length_set]
          rw [if_neg (fun h => hk h.2), if_neg (fun h => hk h.2)]
          rw [List.set_eq_of_length_le (Nat.le_of_not_lt hk)]
      · simp only [hq, if_true, List.length_set, List.getElem?_set_ne hg]
        congr 1
        simp only [List.exists_mem_cons_iff, eq_iff_iff]
        constructor
        · rintro ⟨h1, h2⟩; exact ⟨Or.inr h1, h2⟩
        · rintro ⟨h1 | h1, h2⟩
          · exact absurd h1.2 hg
          · exact ⟨h1, h2⟩
    · simp only [hq, if_false]
      congr 1
      simp only [List.exists_mem_cons_iff, eq_iff_iff]
      constructor
      · rintro ⟨h1, h2⟩; exact ⟨Or.inr h1, h2⟩
      · rintro ⟨h1 | h1, h2⟩
        · exact absurd h1.1 hq
        · exact ⟨h1, h2⟩

theorem setIfFold_mem {α : Type} (q : α → Bool) (g : α → Nat) (v : Nat)
    (b : List Nat) (l : List α) (c : Nat) (hc : c ∈ setIfFold q g v b l) :
    c ∈ b ∨ c = v := by
  induction l generalizing b with
  | nil => exact Or.inl hc
  | cons a l ih =>
    rw [show setIfFold q g v b (a :: l)
        = setIfFold q g v (if q a then b.set (g a) v else b) l from rfl] at hc
    rcases ih _ hc with h | h
    · split at h
      · exact List.mem_or_eq_of_mem_set h
      · exact Or.inl h
    · exact Or.inr h

theorem foldl_ext {α β : Type} (f g : β → α → β) (h : ∀ acc a, f acc a = g acc a)
    (l : List α) (b : β) : l.foldl f b = l.foldl g b := by
  have hfg : f = g := funext fun acc => funext fun a => h acc a
  rw [hfg]

theorem overlay_eq (b : List Nat) (w h : Nat) (px py : Int) (mw mh : Nat) :
    overlay b w h px py mw mh =
      setIfFold (fun t => green_cond px py mw mh t.2 t.1)
        (fun t => (t.1 * w % 2 ^ 32 + t.2) % 2 ^ 32) 0xFF00FF00 b (pix_list w h) := by
  unfold overlay setIfFold pix_list
  rw [foldl_flatMap]
  refine foldl_ext _ _ (fun acc y => ?_) _ _
  rw [List.foldl_map]

theorem fill_black_eq (b : List Nat) :
    fill_black b = List.replicate b.length 0xFF000000 := by
  unfold fill_black
  induction b with
  | nil => rfl
  | cons a l ih => simp [ih, List.replicate_succ]

theorem draw_char_eq (b : List Nat) (x y : Int) (cd : Glyph) (w : Nat) :
    draw_char b x y cd w 3 =
      setIfFold (cand_q x y w) (cand_g x y w) 0xFFFFFFFF b (char_candidates cd) := by
  unfold draw_char setIfFold char_candidates
  rw [foldl_flatMap]
  refine foldl_ext _ _ (fun acc rl => ?_) _ _
  rw [foldl_flatMap]
  refine foldl_ext _ _ (fun acc2 cp => ?_) _ _
  rw [foldl_flatMap]
  cases hcp : cp.2
  case false =>
    simp only [Bool.false_eq_true, if_false]
    refine ((foldl_ext _ (fun acc3 _ => acc3) (fun acc3 dy => ?_) _ _).trans
      (foldl_id _ _)).symm
    rw [List.foldl_map]
    refine ((foldl_ext _ (fun acc4 _ => acc4) (fun acc4 dx => ?_) _ _).trans
      (foldl_id _ _)).symm.symm
    simp [cand_q, hcp]
  case true =>
    simp only [if_true]
    refine foldl_ext _ _ (fun acc3 dy => ?_) _ _
    rw [List.foldl_map]
    refine foldl_ext _ _ (fun acc4 dx => ?_) _ _
    dsimp only
    by_cases hc : 0 ≤ wrap32 (wrap32 (x + wrap32 ((cp.1 : Int) * 3)) + (dx : Int)) ∧
        0 ≤ wrap32 (wrap32 (y + wrap32 ((rl.1 : Int) * 3)) + (dy : Int)) ∧
        wrap32 (wrap32 (x + wrap32 ((cp.1 : Int) * 3)) + (dx : Int)) < u32AsI32 w
    · rw [if_pos hc]
      have hq : cand_q x y w (rl.1, cp.1, true, dy, dx) = true := by
        simp only [cand_q, cand_px, cand_py, Bool.true_and, Bool.and_eq_true,
          decide_eq_true_eq]
        exact ⟨⟨hc.1, hc.2.1⟩, hc.2.2⟩
      rw [if_pos hq]
      simp only [cand_g, cand_px, cand_py]
      split
      · rfl
      · rw [List.set_eq_of_length_le (Nat.le_of_not_lt (by assumption))]
    · rw [if_neg hc]
      have hq : ¬(cand_q x y w (rl.1, cp.1, true, dy, dx) = true) := by
        simp only [cand_q, cand_px, cand_py, Bool.true_and, Bool.and_eq_true,
          decide_eq_true_eq]
        exact fun h => hc ⟨h.1.1, h.1.2, h.2⟩
      rw [if_neg hq]

theorem draw_char_getElem (b : List Nat) (x y : Int) (cd : Glyph) (w k : Nat) :
    (draw_char b x y cd w 3)[k]? =
      if glyph_writes x y cd w k ∧ k < b.length then some 0xFFFFFFFF
      else b[k]? := by
  rw [draw_char_eq, setIfFold_getElem]
  rfl

theorem draw_char_len (b : List Nat) (x y : Int) (cd : Glyph) (w : Nat) :
    (draw_char b x y cd w 3).length = b.length := by
  rw [draw_char_eq]
  exact setIfFold_length _ _ _ _ _

theorem draw_chars_len (gs : List Glyph) (b : List Nat) (x y off : Int) (w : Nat) :
    (draw_chars b x y w off gs).length = b.length := by
  induction gs generalizing b off with
  | nil => rfl
  | cons cd rest ih =>
    rw [show draw_chars b x y w off (cd :: rest)
        = draw_chars (draw_char b (wrap32 (x + off)) y cd w 3) x y w
            (wrap32 (off + 6 * 3)) rest from rfl]
    rw [ih, draw_char_len]

theorem draw_chars_getElem (gs : List Glyph) (b : List Nat) (x y off : Int)
    (w k : Nat) :
    (draw_chars b x y w off gs)[k]? =
      if (∃ i < gs.length, glyph_writes (wrap32 (x + off + 18 * (i : Int))) y
            (gs.getD i blank_glyph) w k) ∧ k < b.length
      then some 0xFFFFFFFF else b[k]? := by
  induction gs generalizing b off with
  | nil => simp [draw_chars]
  | cons cd rest ih =>
    rw [show draw_chars b x y w off (cd :: rest)
        = draw_chars (draw_char b (wrap32 (x + off)) y cd w 3) x y w
            (wrap32 (off + 6 * 3)) rest from rfl]
    rw [ih, draw_char_len, draw_char_getElem]
    have hsplit :
        (∃ i < (cd :: rest).length,
            glyph_writes (wrap32 (x + off + 18 * (i : Int))) y
              ((cd :: rest).getD i blank_glyph) w k) ↔
          ((∃ i < rest.length,
              glyph_writes (wrap32 (x + wrap32 (off + 6 * 3) + 18 * (i : Int))) y
                (rest.getD i blank_glyph) w k) ∨
            glyph_writes (wrap32 (x + off)) y cd w k) := by
      constructor
      · rintro ⟨i, hi, hg⟩
        cases i with
        | zero =>
          right
          have harg : wrap32 (x + off + 18 * ((0 : Nat) : Int)) = wrap32 (x + off) := by
            norm_num
          rw [harg] at hg
          simpa using hg
        | succ j =>
          left
          refine ⟨j, Nat.lt_of_succ_lt_succ hi, ?_⟩
          have harg : wrap32 (x + wrap32 (off + 6 * 3) + 18 * (j : Int)) =
              wrap32 (x + off + 18 * ((j + 1 : Nat) : Int)) := by
            rw [wrap32_add_mid]
            congr 1
            push_cast
            ring
          rw [harg]
          simpa using hg
      · rintro (⟨j, hj, hg⟩ | hg)
        · refine ⟨j + 1, Nat.succ_lt_succ hj, ?_⟩
          have harg : wrap32 (x + wrap32 (off + 6 * 3) + 18 * (j : Int)) =
              wrap32 (x + off + 18 * ((j + 1 : Nat) : Int)) := by
            rw [wrap32_add_mid]
            congr 1
            push_cast
            ring
          rw [← harg]
          simpa using hg
        · refine ⟨0, Nat.succ_pos _, ?_⟩
          have harg : wrap32 (x + off + 18 * ((0 : Nat) : Int)) = wrap32 (x + off) := by
            norm_num
          rw [harg]
          simpa using hg
    by_cases hk : k < b.length
    · simp only [hk, and_true]
      by_cases h1 : ∃ i < rest.length,
          glyph_writes (wrap32 (x + wrap32 (off + 6 * 3) + 18 * (i : Int))) y
            (rest.getD i blank_glyph) w k
      · rw [if_pos h1, if_pos (hsplit.mpr (Or.inl h1))]
      · rw [if_neg h1]
        by_cases h0 : glyph_writes (wrap32 (x + off)) y cd w k
        · rw [if_pos h0, if_pos (hsplit.mpr (Or.inr h0))]
        · rw [if_neg h0, if_neg (fun hc => (hsplit.mp hc).elim h1 h0)]
    · simp only [hk, and_false, if_false]

theorem overlay_len (b : List Nat) (w h : Nat) (px py : Int) (mw mh : Nat) :
    (overlay b w h px py mw mh).length = b.length := by
  rw [overlay_eq]
  exact setIfFold_length _ _ _ _ _

theorem fill_black_len (b : List Nat) : (fill_black b).length = b.length := by
  rw [fill_black_eq, List.length_replicate]

theorem fill_black_getElem (b : List Nat) (k : Nat) (hk : k < b.length) :
    (fill_black b)[k]? = some 0xFF000000 := by
  rw [fill_black_eq]
  simp [List.getElem?_replicate, hk]

theorem overlay_getElem (b : List Nat) (w h : Nat) (px py : Int) (mw mh : Nat)
    (hwh : w * h ≤ 2 ^ 32) (hw : 0 < w) (hlen : b.length = w * h)
    (k : Nat) (hk : k < w * h) :
    (overlay b w h px py mw mh)[k]? =
      if green_cond px py mw mh (k % w) (k / w) then some 0xFF00FF00
      else b[k]? := by
  rw [overlay_eq, setIfFold_getElem]
  have hkb : k < b.length := by omega
  have hmem : (∃ t ∈ pix_list w h,
      green_cond px py mw mh t.2 t.1 = true ∧
        (t.1 * w % 2 ^ 32 + t.2) % 2 ^ 32 = k) ↔
      green_cond px py mw mh (k % w) (k / w) = true := by
    constructor
    · rintro ⟨t, hmem, hq, hg⟩
      simp only [pix_list, List.mem_flatMap, List.mem_map, List.mem_range] at hmem
      obtain ⟨y0, hy0, x0, hx0, heq⟩ := hmem
      subst heq
      simp only at hq hg
      have hxy : y0 * w + x0 < w * h := by
        calc y0 * w + x0 < y0 * w + w := by omega
        _ = (y0 + 1) * w := by ring
        _ ≤ h * w := Nat.mul_le_mul_right w hy0
        _ = w * h := Nat.mul_comm h w
      obtain ⟨A, hA⟩ : ∃ A, A = y0 * w := ⟨_, rfl⟩
      rw [← hA] at hg hxy
      have hgk : A + x0 = k := by omega
      have hmod : k % w = x0 := by
        rw [← hgk, hA, Nat.add_comm, Nat.add_mul_mod_self_right,
          Nat.mod_eq_of_lt hx0]
      have hdiv : k / w = y0 := by
        rw [← hgk, hA, Nat.mul_comm y0 w, Nat.mul_add_div hw,
          Nat.div_eq_of_lt hx0, Nat.add_zero]
      rw [hmod, hdiv]
      exact hq
    · intro hq
      refine ⟨(k / w, k % w), ?_, hq, ?_⟩
      · simp only [pix_list, List.mem_flatMap, List.mem_map, List.mem_range]
        exact ⟨k / w, Nat.div_lt_of_lt_mul hk, k % w, Nat.mod_lt _ hw, rfl⟩
      · simp only
        have hdm : k / w * w + k % w = k := Nat.div_add_mod' k w
        obtain ⟨A, hA⟩ : ∃ A, A = k / w * w := ⟨_, rfl⟩
        rw [← hA] at hdm
        have hlt : A + k % w < 2 ^ 32 := by omega
        omega
  by_cases hg : green_cond px py mw mh (k % w) (k / w) = true
  · rw [if_pos ⟨hmem.mpr hg, hkb⟩, if_pos hg]
  · rw [if_neg (fun hc => hg (hmem.mp hc.1)), if_neg hg]

theorem redraw_len (b : List Nat) (w h : Nat) (px py : Int) (mw mh : Nat) :
    (redraw b w h px py mw mh).length = b.length := by
  unfold redraw draw_text
  rw [draw_chars_len, overlay_len, fill_black_len]

theorem redraw_getElem (b : List Nat) (w h : Nat) (px py : Int) (mw mh : Nat)
    (hlen : b.length = w * h) (hw : 0 < w) (hwh : w * h ≤ 2 ^ 32)
    (k : Nat) (hk : k < w * h) :
    (redraw b w h px py mw mh)[k]? =
      if text_writes (text_origin px py mw mh).1 (text_origin px py mw mh).2 w k
      then some 0xFFFFFFFF
      else if green_cond px py mw mh (k % w) (k / w) then some 0xFF00FF00
      else some 0xFF000000 := by
  unfold redraw draw_text
  rw [draw_chars_getElem, overlay_len, fill_black_len,
    overlay_getElem _ _ _ _ _ _ _ hwh hw (by rw [fill_black_len]; exact hlen) k hk,
    fill_black_getElem _ _ (by omega)]
  have hcond : (∃ i < text_bitmaps.length,
      glyph_writes (wrap32 ((text_origin px py mw mh).1 + 0 + 18 * (i : Int)))
        (text_origin px py mw mh).2 (text_bitmaps.getD i blank_glyph) w k) ↔
      text_writes (text_origin px py mw mh).1 (text_origin px py mw mh).2 w k := by
    unfold text_writes
    refine exists_congr fun i => and_congr_right fun _ => ?_
    rw [show (text_origin px py mw mh).1 + 0 + 18 * (i : Int)
        = (text_origin px py mw mh).1 + 18 * (i : Int) by ring]
  have hkb : k < b.length := by omega
  by_cases ht : text_writes (text_origin px py mw mh).1 (text_origin px py mw mh).2 w k
  · rw [if_pos ⟨hcond.mpr ht, hkb⟩, if_pos ht]
  · rw [if_neg (fun hc => ht (hcond.mp hc.1)), if_neg ht]

theorem idx_lt_iff (a c w h : Nat) (hc : c < w) :
    a * w + c < w * h ↔ a < h := by
  have h1 : w * h = h * w := Nat.mul_comm w h
  constructor
  · intro hlt
    by_contra hge
    have hge2 : h ≤ a := Nat.le_of_not_lt hge
    have h2 : h * w ≤ a * w := Nat.mul_le_mul_right w hge2
    omega
  · intro ha
    have h2 : (a + 1) * w ≤ h * w := Nat.mul_le_mul_right w ha
    have h3 : (a + 1) * w = a * w + w := by ring
    omega

theorem mem_char_candidates (cd : Glyph) (t : Nat × Nat × Bool × Nat × Nat) :
    t ∈ char_candidates cd ↔
      ∃ ln, cd[t.1]? = some ln ∧ ln[t.2.1]? = some t.2.2.1 ∧
        t.2.2.2.1 < 3 ∧ t.2.2.2.2 < 3 := by
  obtain ⟨row, col, pix, dy, dx⟩ := t
  simp only [char_candidates, List.mem_flatMap, List.mem_map, List.mem_range]
  constructor
  · rintro ⟨rl, hrl, cp, hcp, dy2, hdy2, dx2, hdx2, heq⟩
    obtain ⟨r, ln⟩ := rl
    obtain ⟨c, pv⟩ := cp
    simp only [Prod.mk.injEq] at heq
    obtain ⟨h1, h2, h3, h4, h5⟩ := heq
    subst h1; subst h2; subst h3; subst h4; subst h5
    rw [List.mk_mem_enum_iff_getElem?] at hrl hcp
    exact ⟨ln, hrl, hcp, hdy2, hdx2⟩
  · rintro ⟨ln, h1, h2, h3, h4⟩
    exact ⟨(row, ln), List.mk_mem_enum_iff_getElem?.mpr h1,
      (col, pix), List.mk_mem_enum_iff_getElem?.mpr h2, dy, h3, dx, h4, rfl⟩

theorem text_bitmaps_shape : text_bitmaps.length = 28 ∧
    ∀ g ∈ text_bitmaps, g.length = 8 ∧ ∀ line ∈ g, line.length = 5 := by
  decide

theorem cand_px_exact (x : Int) (col dx : Nat) (hcol : col < 5) (hdx : dx < 3)
    (h1 : -(2 ^ 31) ≤ x) (h2 : x + 15 ≤ 2 ^ 31) :
    cand_px x col dx = x + 3 * (col : Int) + (dx : Int) := by
  unfold cand_px wrap32
  omega

theorem cand_py_exact (y : Int) (row dy : Nat) (hrow : row < 8) (hdy : dy < 3)
    (h1 : -(2 ^ 31) ≤ y) (h2 : y + 24 ≤ 2 ^ 31) :
    cand_py y row dy = y + 3 * (row : Int) + (dy : Int) := by
  unfold cand_py wrap32
  omega

theorem green_cond_eq_boundary (px py : Int) (mw mh w h x y : Nat)
    (hx : x < w) (hy : y < h)
    (hpx : -(2 ^ 31) ≤ px) (hpy : -(2 ^ 31) ≤ py)
    (hxw : px + (w : Int) ≤ 2 ^ 31) (hyh : py + (h : Int) ≤ 2 ^ 31)
    (hw31 : (w : Int) ≤ 2 ^ 31) (hh31 : (h : Int) ≤ 2 ^ 31)
    (hmw : (mw : Int) < 2 ^ 31) (hmh : (mh : Int) < 2 ^ 31) :
    green_cond px py mw mh x y = true ↔
      boundary_cond (px + (x : Int)) (py + (y : Int)) mw mh := by
  simp only [green_cond, u32AsI32, boundary_cond, Bool.or_eq_true, decide_eq_true_eq]
  rw [wrap32_eq_self (n := ((x : Nat) : Int)) (by omega) (by omega),
    wrap32_eq_self (n := ((y : Nat) : Int)) (by omega) (by omega),
    wrap32_eq_self (n := px + ((x : Nat) : Int)) (by omega) (by omega),
    wrap32_eq_self (n := py + ((y : Nat) : Int)) (by omega) (by omega),
    wrap32_eq_self (n := ((mw : Nat) : Int)) (by omega) (by omega),
    wrap32_eq_self (n := ((mw : Nat) : Int) - 100) (by omega) (by omega),
    wrap32_eq_self (n := ((mh : Nat) : Int)) (by omega) (by omega),
    wrap32_eq_self (n := ((mh : Nat) : Int) - 100) (by omega) (by omega)]
  omega

theorem text_origin_exact (px py : Int) (mw mh : Nat)
    (hpx2 : px < 2 ^ 31) (hpy : -(2 ^ 31) ≤ py) (hpy2 : py < 2 ^ 31)
    (hmw : (mw : Int) < 2 ^ 31) (hmh : (mh : Int) + 1000 ≤ 2 ^ 31)
    (htx : (mw : Int) / 2 - px < 2 ^ 31)
    (hty : -(2 ^ 31) ≤ -(mh : Int) - 1000 - py) :
    text_origin px py mw mh = ((mw : Int) / 2 - px, -(mh : Int) - 1000 - py) := by
  unfold text_origin off_screen_x off_screen_y u32AsI32
  rw [wrap32_eq_self (n := ((mw : Nat) : Int)) (by omega) hmw,
    Int.tdiv_eq_ediv (by omega) (by norm_num),
    wrap32_eq_self (n := ((mh : Nat) : Int)) (by omega) (by omega),
    wrap32_eq_self (n := -((mh : Nat) : Int)) (by omega) (by omega),
    wrap32_eq_self (n := -((mh : Nat) : Int) - 1000) (by omega) (by omega),
    wrap32_eq_self (n := ((mw : Nat) : Int) / 2 - px) (by omega) htx,
    wrap32_eq_self (n := -((mh : Nat) : Int) - 1000 - py) hty (by omega)]

theorem draw_chars_mem (gs : List Glyph) (b : List Nat) (x y off : Int)
    (w : Nat) (c : Nat) (hc : c ∈ draw_chars b x y w off gs) :
    c ∈ b ∨ c = 0xFFFFFFFF := by
  induction gs generalizing b off with
  | nil => exact Or.inl hc
  | cons cd rest ih =>
    rw [show draw_chars b x y w off (cd :: rest)
        = draw_chars (draw_char b (wrap32 (x + off)) y cd w 3) x y w
            (wrap32 (off + 6 * 3)) rest from rfl] at hc
    rcases ih _ _ hc with h | h
    · rw [draw_char_eq] at h
      rcases setIfFold_mem _ _ _ _ _ _ h with h2 | h2
      · exact Or.inl h2
      · exact Or.inr h2
    · exact Or.inr h

theorem text_writes_iff_covers (w h : Nat) (tx ty : Int) (k : Nat)
    (hw : 0 < w) (hw31 : (w : Int) < 2 ^ 31) (hwh : w * h ≤ 2 ^ 32)
    (hk : k < w * h)
    (htx1 : -(2 ^ 31) ≤ tx) (htx2 : tx + 512 ≤ 2 ^ 31)
    (hty1 : -(2 ^ 31) ≤ ty) (hty2 : ty + 24 ≤ 2 ^ 31)
    (hnw : (ty.toNat + 24) * w ≤ 2 ^ 32) :
    text_writes tx ty w k ↔ covers_pixel tx ty (k % w) (k / w) := by
  have hshape := text_bitmaps_shape
  constructor
  · intro htw
    unfold text_writes glyph_writes at htw
    obtain ⟨i, hi, t, htmem, hq, hg⟩ := htw
    obtain ⟨row, col, pix, dy, dx⟩ := t
    rw [mem_char_candidates] at htmem
    obtain ⟨ln, hln, hpixln, hdy, hdx⟩ := htmem
    have hi28 : i < 28 := hshape.1 ▸ hi
    have hcdmem : text_bitmaps.getD i blank_glyph ∈ text_bitmaps := by
      rw [List.getD_eq_getElem text_bitmaps blank_glyph hi]
      exact List.getElem_mem hi
    have h8 : (text_bitmaps.getD i blank_glyph).length = 8 := (hshape.2 _ hcdmem).1
    have hrow : row < (text_bitmaps.getD i blank_glyph).length := by
      by_contra hcon
      rw [List.getElem?_eq_none (Nat.le_of_not_lt hcon)] at hln
      exact absurd hln (by simp)
    have hlnmem : ln ∈ text_bitmaps.getD i blank_glyph := List.getElem?_mem hln
    have h5 : ln.length = 5 := (hshape.2 _ hcdmem).2 ln hlnmem
    have hcol : col < ln.length := by
      by_contra hcon
      rw [List.getElem?_eq_none (Nat.le_of_not_lt hcon)] at hpixln
      exact absurd hpixln (by simp)
    simp only [cand_q, Bool.and_eq_true, decide_eq_true_eq] at hq
    obtain ⟨hpix, ⟨hA, hB⟩, hC⟩ := hq
    have hxeq : cand_px (wrap32 (tx + 18 * (i : Int))) col dx
        = tx + 18 * (i : Int) + 3 * (col : Int) + (dx : Int) := by
      rw [wrap32_eq_self (n := tx + 18 * (i : Int)) (by omega) (by omega),
        cand_px_exact (tx + 18 * (i : Int)) col dx (h5 ▸ hcol) hdx
          (by omega) (by omega)]
    have hyeq : cand_py ty row dy = ty + 3 * (row : Int) + (dy : Int) :=
      cand_py_exact ty row dy (h8 ▸ hrow) hdy hty1 (by omega)
    rw [hxeq] at hA hC
    rw [hyeq] at hB
    rw [u32AsI32, wrap32_eq_self (by omega) hw31] at hC
    simp only [cand_g] at hg
    rw [hxeq, hyeq] at hg
    dsimp only at hdy hdx
    obtain ⟨PX, hPXdef⟩ :
        ∃ v : Int, v = tx + 18 * (i : Int) + 3 * (col : Int) + (dx : Int) := ⟨_, rfl⟩
    rw [← hPXdef] at hA hC hg
    obtain ⟨PY, hPYdef⟩ :
        ∃ v : Int, v = ty + 3 * (row : Int) + (dy : Int) := ⟨_, rfl⟩
    rw [← hPYdef] at hB hg
    have hrow7 : row < 8 := h8 ▸ hrow
    have hPXw : PX.toNat < w := by omega
    have hPYub : PY ≤ ty + 23 := by
      rw [hPYdef]
      omega
    have hPYle : PY.toNat ≤ ty.toNat + 23 := by omega
    have hmul : PY.toNat * w ≤ (ty.toNat + 23) * w := Nat.mul_le_mul_right w hPYle
    have hexp : (ty.toNat + 23) * w + w = (ty.toNat + 24) * w := by ring
    have hidx : PY.toNat * w + PX.toNat < 2 ^ 32 :=
      calc PY.toNat * w + PX.toNat
          ≤ (ty.toNat + 23) * w + PX.toNat := Nat.add_le_add_right hmul _
        _ < (ty.toNat + 23) * w + w := Nat.add_lt_add_left hPXw _
        _ = (ty.toNat + 24) * w := hexp
        _ ≤ 2 ^ 32 := hnw
    have hgk : PY.toNat * w + PX.toNat = k := by
      obtain ⟨B, hB⟩ : ∃ B, B = PY.toNat * w := ⟨_, rfl⟩
      rw [← hB] at hg hidx ⊢
      omega
    have hkm : k % w = PX.toNat := by
      rw [← hgk, Nat.add_comm, Nat.add_mul_mod_self_right, Nat.mod_eq_of_lt hPXw]
    have hkd : k / w = PY.toNat := by
      rw [← hgk, Nat.mul_comm, Nat.mul_add_div hw, Nat.div_eq_of_lt hPXw,
        Nat.add_zero]
    refine ⟨i, hi, row, h8 ▸ hrow, col, h5 ▸ hcol, dy, hdy, dx, hdx, ?_, ?_, ?_⟩
    · have e1 : (text_bitmaps.getD i blank_glyph).getD row [] = ln := by
        rw [List.getD_eq_getElem _ _ hrow]
        refine Option.some.inj ?_
        rw [← List.getElem?_eq_getElem hrow]
        exact hln
      have e2 : ln.getD col false = pix := by
        rw [List.getD_eq_getElem _ _ hcol]
        refine Option.some.inj ?_
        rw [← List.getElem?_eq_getElem hcol]
        exact hpixln
      rw [e1, e2]
      exact hpix
    · rw [hkm, ← hPXdef]
      omega
    · rw [hkd, ← hPYdef]
      omega
  · intro hcov
    unfold covers_pixel at hcov
    obtain ⟨i, hi, row, hrow, col, hcol, dy, hdy, dx, hdx, hink, hex, hey⟩ := hcov
    have hi28 : i < 28 := hshape.1 ▸ hi
    have hcdmem : text_bitmaps.getD i blank_glyph ∈ text_bitmaps := by
      rw [List.getD_eq_getElem text_bitmaps blank_glyph hi]
      exact List.getElem_mem hi
    have h8 : (text_bitmaps.getD i blank_glyph).length = 8 := (hshape.2 _ hcdmem).1
    have hrow' : row < (text_bitmaps.getD i blank_glyph).length := h8 ▸ hrow
    have hln : (text_bitmaps.getD i blank_glyph)[row]? =
        some ((text_bitmaps.getD i blank_glyph).getD row []) := by
      rw [List.getElem?_eq_getElem hrow',
        List.getD_eq_getElem (text_bitmaps.getD i blank_glyph) [] hrow']
    have hlnmem : (text_bitmaps.getD i blank_glyph).getD row []
        ∈ text_bitmaps.getD i blank_glyph := List.getElem?_mem hln
    have h5 : ((text_bitmaps.getD i blank_glyph).getD row []).length = 5 :=
      (hshape.2 _ hcdmem).2 _ hlnmem
    have hcol' : col < ((text_bitmaps.getD i blank_glyph).getD row []).length :=
      h5 ▸ hcol
    have hpixln : ((text_bitmaps.getD i blank_glyph).getD row [])[col]? = some true := by
      rw [List.getElem?_eq_getElem hcol']
      rw [← List.getD_eq_getElem ((text_bitmaps.getD i blank_glyph).getD row [])
        false hcol', hink]
    have hxeq : cand_px (wrap32 (tx + 18 * (i : Int))) col dx
        = tx + 18 * (i : Int) + 3 * (col : Int) + (dx : Int) := by
      rw [wrap32_eq_self (n := tx + 18 * (i : Int)) (by omega) (by omega),
        cand_px_exact (tx + 18 * (i : Int)) col dx hcol hdx (by omega) (by omega)]
    have hyeq : cand_py ty row dy = ty + 3 * (row : Int) + (dy : Int) :=
      cand_py_exact ty row dy hrow hdy hty1 (by omega)
    have hkw : k % w < w := Nat.mod_lt _ hw
    obtain ⟨r, hr⟩ : ∃ r, r = k % w := ⟨_, rfl⟩
    obtain ⟨q, hq2⟩ : ∃ q, q = k / w := ⟨_, rfl⟩
    have hdm : q * w + r = k := by
      rw [hr, hq2]
      exact Nat.div_add_mod' k w
    rw [← hr] at hex hkw
    rw [← hq2] at hey
    unfold text_writes glyph_writes
    refine ⟨i, hi, (row, col, true, dy, dx), ?_, ?_, ?_⟩
    · rw [mem_char_candidates]
      exact ⟨(text_bitmaps.getD i blank_glyph).getD row [], hln, hpixln, hdy, hdx⟩
    · simp only [cand_q, Bool.and_eq_true, decide_eq_true_eq]
      rw [hxeq, hyeq]
      rw [show u32AsI32 w = (w : Int) from wrap32_eq_self (by omega) hw31]
      refine ⟨trivial, ⟨?_, ?_⟩, ?_⟩
      · omega
      · omega
      · omega
    · simp only [cand_g]
      rw [hxeq, hyeq]
      have hPXn : (tx + 18 * (i : Int) + 3 * (col : Int) + (dx : Int)).toNat = r := by
        omega
      have hPYn : (ty + 3 * (row : Int) + (dy : Int)).toNat = q := by
        omega
      rw [hPXn, hPYn]
      obtain ⟨A, hA⟩ : ∃ A, A = q * w := ⟨_, rfl⟩
      rw [← hA] at hdm ⊢
      omega

/-- C7: the character-to-glyph lookup is total over the declared
56-character set: `LETTER_DATA` has exactly 56 entries; for every byte
in the set (A-Z, a-z, `{`, `}`, `_`, space) `index_u8` over
`LETTER_DATA` returns `Some` index into `FONT_DATA`, and for every
other byte (digits, other punctuation, non-ASCII) it returns `None`.
The lookup is a pure function of its arguments by construction. -/
theorem C7_lookup_total :
    letter_data.length = 56 ∧
    ∀ b : Fin 256,
      (supported_byte b.val →
        (index_u8 letter_data b.val).isSome = true ∧
        (index_u8 letter_data b.val).getD 0 < font_data.length) ∧
      (¬ supported_byte b.val → index_u8 letter_data b.val = none) := by
  set_option maxRecDepth 4000 in decide

/-- C9: the compile-time message pipeline is well-formed:
`string_to_bytes` on the 28-character message string returns `Some` of
its byte array (`TEXT_SOURCE`); every message byte is in the supported
set; `text_to_bitmap` on `TEXT_SOURCE` returns `Some TEXT_BITMAPS`; and
each `TEXT_BITMAPS[i]` is `FONT_DATA` at the `LETTER_DATA` index of the
`i`-th message byte. -/
theorem C9_message_pipeline :
    string_to_bytes message_bytes 28 = some text_source ∧
    (∀ b ∈ text_source, supported_byte b) ∧
    text_to_bitmap text_source = some text_bitmaps ∧
    ∀ i : Fin 28, text_bitmaps[(i : Nat)]? =
      (index_u8 letter_data (text_source.getD (i : Nat) 0)).bind
        (fun ci => font_data[ci]?) := by
  decide

/-- C4 counterexample: the glyph lookup miss is not absorbed silently.
`text_to_bitmap` succeeds on the supported message `"h"` but returns
`None` for `"h1"` (the digit one, byte 49, is unsupported): the whole
conversion fails instead of skipping the character. -/
theorem C4_counterexample :
    (text_to_bitmap [104]).isSome = true ∧ text_to_bitmap [104, 49] = none := by
  decide

/-- C4 amended: a message byte outside the supported set makes
`text_to_bitmap` return `None` for the whole message (in the program
the compile-time `unwrap` of that `None` fails); conversion succeeds
exactly when every byte is in `LETTER_DATA`. -/
theorem C4_lookup_miss (bs : List Nat) :
    text_to_bitmap bs = none ↔ ∃ b ∈ bs, index_u8 letter_data b = none := by
  induction bs with
  | nil => simp [text_to_bitmap]
  | cons c rest ih =>
    constructor
    · intro h
      cases hc : index_u8 letter_data c with
      | none => exact ⟨c, List.mem_cons_self c rest, hc⟩
      | some ci =>
        cases hr : text_to_bitmap rest with
        | none =>
          obtain ⟨b, hb, hbn⟩ := ih.mp hr
          exact ⟨b, List.mem_cons_of_mem c hb, hbn⟩
        | some gs =>
          simp only [text_to_bitmap, hc, hr] at h
          exact Option.noConfusion h
    · rintro ⟨b, hb, hbn⟩
      rcases List.mem_cons.mp hb with rfl | hb2
      · simp [text_to_bitmap, hbn]
      · have h2 : text_to_bitmap rest = none := ih.mpr ⟨b, hb2, hbn⟩
        cases hc : index_u8 letter_data c with
        | none => simp [text_to_bitmap, hc]
        | some ci => simp [text_to_bitmap, hc, h2]

/-- C5 counterexample: at the representable `i32` window position
`px = -2^31` with monitor width 1920, the `i32` subtraction
`off_screen_x - pos.x` overflows and the computed `text_x` is the
wrapped value, not `mw/2 - px` as the claim states. -/
theorem C5_counterexample :
    (text_origin (-2147483648) 0 1920 1080).1 ≠ (1920 : Int) / 2 - (-2147483648) := by
  decide

/-- C5 amended: whenever `mw/2 - px` and `-mh - 1000 - py` lie within
the `i32` range (true for all realistic geometries), the window-local
text draw origin equals the world anchor `(mw/2, -mh - 1000)` minus the
window position, unclipped (it may be negative or far outside the
window); outside that range the `i32` computation wraps. -/
theorem C5_text_origin (px py : Int) (mw mh : Nat)
    (hpx2 : px < 2 ^ 31) (hpy : -(2 ^ 31) ≤ py) (hpy2 : py < 2 ^ 31)
    (hmw : (mw : Int) < 2 ^ 31) (hmh : (mh : Int) + 1000 ≤ 2 ^ 31)
    (htx : (mw : Int) / 2 - px < 2 ^ 31)
    (hty : -(2 ^ 31) ≤ -(mh : Int) - 1000 - py) :
    text_origin px py mw mh = ((mw : Int) / 2 - px, -(mh : Int) - 1000 - py) :=
  text_origin_exact px py mw mh hpx2 hpy hpy2 hmw hmh htx hty

/-- C5 witness: at window position `(100, 200)` on a 1920x1080 monitor
the text origin is `(860, -2280)`. -/
theorem C5_text_origin_witness :
    text_origin 100 200 1920 1080 = (860, -2280) := by
  rw [C5_text_origin 100 200 1920 1080 (by decide) (by decide) (by decide)
    (by decide) (by decide) (by decide) (by decide)]
  decide

/-- C10: the frame computation is deterministic and depends only on the
geometry inputs and the buffer length: any two initial buffers of equal
length produce identical rendered buffers, cell for cell (the
background fill overwrites every cell before the other passes). -/
theorem C10_deterministic (b1 b2 : List Nat) (w h : Nat) (px py : Int)
    (mw mh : Nat) (hlen : b1.length = b2.length) :
    redraw b1 w h px py mw mh = redraw b2 w h px py mw mh := by
  unfold redraw
  rw [show fill_black b1 = fill_black b2 by
    rw [fill_black_eq, fill_black_eq, hlen]]

/-- C10 witness: two different 4-cell buffers render identically. -/
theorem C10_deterministic_witness :
    redraw [1, 2, 3, 4] 2 2 0 0 1920 1080 =
      redraw [9, 8, 7, 6] 2 2 0 0 1920 1080 :=
  C10_deterministic [1, 2, 3, 4] [9, 8, 7, 6] 2 2 0 0 1920 1080 (by decide)

/-- C3: for a buffer of length `width * height`, the render preserves
that length and leaves every cell holding one of exactly the three
palette values black `0xFF000000`, green `0xFF00FF00`, or white
`0xFFFFFFFF` — no cell retains its initial value, because the
background fill assigns every cell before the overlay and glyph passes. -/
theorem C3_palette (b : List Nat) (w h : Nat) (px py : Int) (mw mh : Nat)
    (hlen : b.length = w * h) :
    (redraw b w h px py mw mh).length = w * h ∧
    ∀ c ∈ redraw b w h px py mw mh,
      c = 0xFF000000 ∨ c = 0xFF00FF00 ∨ c = 0xFFFFFFFF := by
  constructor
  · rw [redraw_len, hlen]
  · intro c hc
    unfold redraw draw_text at hc
    rcases draw_chars_mem _ _ _ _ _ _ _ hc with h1 | h1
    · rw [overlay_eq] at h1
      rcases setIfFold_mem _ _ _ _ _ _ h1 with h2 | h2
      · rw [fill_black_eq] at h2
        exact Or.inl (List.eq_of_mem_replicate h2)
      · exact Or.inr (Or.inl h2)
    · exact Or.inr (Or.inr h1)

/-- C3 witness: a 2x1 render of an arbitrary initial buffer. -/
theorem C3_palette_witness :
    (redraw [5, 6] 2 1 0 0 10 10).length = 2 * 1 ∧
    ∀ c ∈ redraw [5, 6] 2 1 0 0 10 10,
      c = 0xFF000000 ∨ c = 0xFF00FF00 ∨ c = 0xFFFFFFFF :=
  C3_palette [5, 6] 2 1 0 0 10 10 (by decide)

set_option maxRecDepth 8000 in
/-- C8: text advances left to right by a fixed `6 * SCALE = 18` pixels
per character, unconditionally: the `i`-th glyph of the message is
drawn at origin `x + 18 * i` (first conjunct, via the write
characterization of the text loop); concretely, the `H` glyph drawn at
`x = 10` has all its ink within window-local x in `[10, 25)` (third
conjunct, over all scaled candidate cells of the `H` glyph), and the
second character begins at `x = 10 + 18 = 28` (second conjunct). -/
theorem C8_advance (b : List Nat) (x y : Int) (w k : Nat) (gs : List Glyph) :
    ((draw_chars b x y w 0 gs)[k]? =
      if (∃ i < gs.length,
            glyph_writes (wrap32 (x + 18 * (i : Int))) y (gs.getD i blank_glyph) w k) ∧
          k < b.length
        then some 0xFFFFFFFF else b[k]?) ∧
    wrap32 ((10 : Int) + 18 * 1) = 28 ∧
    (∀ t ∈ char_candidates (font_data.getD 7 blank_glyph), t.2.2.1 = true →
      10 ≤ cand_px 10 t.2.1 t.2.2.2.2 ∧ cand_px 10 t.2.1 t.2.2.2.2 < 25) := by
  refine ⟨?_, by decide, by decide⟩
  rw [draw_chars_getElem]
  have hcond : (∃ i < gs.length,
      glyph_writes (wrap32 (x + 0 + 18 * (i : Int))) y (gs.getD i blank_glyph) w k) ↔
      (∃ i < gs.length,
        glyph_writes (wrap32 (x + 18 * (i : Int))) y (gs.getD i blank_glyph) w k) := by
    refine exists_congr fun i => and_congr_right fun _ => ?_
    rw [show x + 0 + 18 * (i : Int) = x + 18 * (i : Int) by ring]
  by_cases hc2 : (∃ i < gs.length,
      glyph_writes (wrap32 (x + 18 * (i : Int))) y (gs.getD i blank_glyph) w k) ∧
      k < b.length
  · rw [if_pos ⟨hcond.mpr hc2.1, hc2.2⟩, if_pos hc2]
  · rw [if_neg (fun hcc => hc2 ⟨hcond.mp hcc.1, hcc.2⟩), if_neg hc2]

/-- C2 counterexample: at draw origin `(0, 1431655765)` with buffer
width 3 and a 9-cell buffer, every candidate pixel of the probe glyph
lies far below the window (`py >= 1431655765 >= height`), yet the `u32`
index computation `py * width + px` wraps modulo `2^32` to small
in-buffer indices and the glyph pass writes white into the buffer: the
out-of-bounds candidates are wrapped, not dropped, and the buffer is
changed by a glyph with no in-bounds pixel. -/
theorem C2_counterexample :
    (∀ row : Fin 8, ∀ d : Fin 3,
      (3 : Int) ≤ 1431655765 + 3 * ((row : Nat) : Int) + ((d : Nat) : Int)) ∧
    draw_char (List.replicate 9 0xFF000000) 0 1431655765 probe_glyph 3 3 ≠
      List.replicate 9 0xFF000000 := by
  decide

/-- C2 amended: provided the index computation cannot overflow `u32`
(`(y.toNat + 24) * width <= 2^32`, true for every realistic origin
including `y = -10000`) and the coordinates stay within `i32`, glyph
drawing writes only to indices of in-window candidate pixels: the
buffer keeps its length, every cell not covered by an in-bounds ink
candidate is unchanged, out-of-bounds candidates are dropped, and the
guard `px >= 0 && py >= 0 && px < width` plus
`idx < buffer.len()` is equivalent to the full two-dimensional bounds
check including `py < height` (third conjunct). -/
theorem C2_bounds_safety (b : List Nat) (x y : Int) (cd : Glyph) (w h k : Nat)
    (hlen : b.length = w * h)
    (hcd8 : cd.length ≤ 8) (hcd5 : ∀ ln ∈ cd, ln.length ≤ 5)
    (hx1 : -(2 ^ 31) ≤ x) (hx2 : x + 15 ≤ 2 ^ 31)
    (hy1 : -(2 ^ 31) ≤ y) (hy2 : y + 24 ≤ 2 ^ 31)
    (hw31 : (w : Int) < 2 ^ 31)
    (hnw : (y.toNat + 24) * w ≤ 2 ^ 32) :
    ((draw_char b x y cd w 3).length = b.length) ∧
    ((draw_char b x y cd w 3)[k]? =
      if ∃ row < cd.length, ∃ col < (cd.getD row []).length,
          (cd.getD row []).getD col false = true ∧
          ∃ (dy : Nat), dy < 3 ∧ ∃ (dx : Nat), dx < 3 ∧
            0 ≤ x + 3 * (col : Int) + (dx : Int) ∧
            x + 3 * (col : Int) + (dx : Int) < (w : Int) ∧
            0 ≤ y + 3 * (row : Int) + (dy : Int) ∧
            y + 3 * (row : Int) + (dy : Int) < (h : Int) ∧
            (y + 3 * (row : Int) + (dy : Int)).toNat * w +
              (x + 3 * (col : Int) + (dx : Int)).toNat = k
        then some 0xFFFFFFFF else b[k]?) ∧
    (∀ cx cy : Int, 0 ≤ cx → cx < (w : Int) → 0 ≤ cy →
      (cy.toNat * w + cx.toNat < w * h ↔ cy < (h : Int))) := by
  have harith : ∀ cx cy : Int, 0 ≤ cx → cx < (w : Int) → 0 ≤ cy →
      (cy.toNat * w + cx.toNat < w * h ↔ cy < (h : Int)) := by
    intro cx cy h1 h2 h3
    have hcx : cx.toNat < w := by omega
    have hi := idx_lt_iff cy.toNat cx.toNat w h hcx
    constructor
    · intro hlt
      have := hi.mp hlt
      omega
    · intro hlt
      exact hi.mpr (by omega)
  refine ⟨draw_char_len b x y cd w, ?_, harith⟩
  rw [draw_char_getElem]
  have hiff : (glyph_writes x y cd w k ∧ k < b.length) ↔
      (∃ row < cd.length, ∃ col < (cd.getD row []).length,
        (cd.getD row []).getD col false = true ∧
        ∃ (dy : Nat), dy < 3 ∧ ∃ (dx : Nat), dx < 3 ∧
          0 ≤ x + 3 * (col : Int) + (dx : Int) ∧
          x + 3 * (col : Int) + (dx : Int) < (w : Int) ∧
          0 ≤ y + 3 * (row : Int) + (dy : Int) ∧
          y + 3 * (row : Int) + (dy : Int) < (h : Int) ∧
          (y + 3 * (row : Int) + (dy : Int)).toNat * w +
            (x + 3 * (col : Int) + (dx : Int)).toNat = k) := by
    constructor
    · rintro ⟨hgw, hkb⟩
      unfold glyph_writes at hgw
      obtain ⟨t, htmem, hq, hg⟩ := hgw
      obtain ⟨row, col, pix, dy, dx⟩ := t
      rw [mem_char_candidates] at htmem
      obtain ⟨ln, hln, hpixln, hdy, hdx⟩ := htmem
      dsimp only at hdy hdx
      have hrow : row < cd.length := by
        by_contra hcon
        rw [List.getElem?_eq_none (Nat.le_of_not_lt hcon)] at hln
        exact absurd hln (by simp)
      have hcol : col < ln.length := by
        by_contra hcon
        rw [List.getElem?_eq_none (Nat.le_of_not_lt hcon)] at hpixln
        exact absurd hpixln (by simp)
      have hlnmem : ln ∈ cd := List.getElem?_mem hln
      have h5 : ln.length ≤ 5 := hcd5 ln hlnmem
      have e1 : cd.getD row [] = ln := by
        rw [List.getD_eq_getElem _ _ hrow]
        refine Option.some.inj ?_
        rw [← List.getElem?_eq_getElem hrow]
        exact hln
      have e2 : ln.getD col false = pix := by
        rw [List.getD_eq_getElem _ _ hcol]
        refine Option.some.inj ?_
        rw [← List.getElem?_eq_getElem hcol]
        exact hpixln
      simp only [cand_q, Bool.and_eq_true, decide_eq_true_eq] at hq
      obtain ⟨hpix, ⟨hA, hB⟩, hC⟩ := hq
      have hxeq : cand_px x col dx = x + 3 * (col : Int) + (dx : Int) :=
        cand_px_exact x col dx (by omega) hdx hx1 hx2
      have hyeq : cand_py y row dy = y + 3 * (row : Int) + (dy : Int) :=
        cand_py_exact y row dy (by omega) hdy hy1 hy2
      rw [hxeq] at hA hC
      rw [hyeq] at hB
      rw [u32AsI32, wrap32_eq_self (by omega) hw31] at hC
      simp only [cand_g] at hg
      rw [hxeq, hyeq] at hg
      obtain ⟨PX, hPXdef⟩ :
          ∃ v : Int, v = x + 3 * (col : Int) + (dx : Int) := ⟨_, rfl⟩
      rw [← hPXdef] at hA hC hg
      obtain ⟨PY, hPYdef⟩ :
          ∃ v : Int, v = y + 3 * (row : Int) + (dy : Int) := ⟨_, rfl⟩
      rw [← hPYdef] at hB hg
      have hPXw : PX.toNat < w := by omega
      have hPYub : PY ≤ y + 23 := by
        rw [hPYdef]
        omega
      have hPYle : PY.toNat ≤ y.toNat + 23 := by omega
      have hmul : PY.toNat * w ≤ (y.toNat + 23) * w := Nat.mul_le_mul_right w hPYle
      have hexp : (y.toNat + 23) * w + w = (y.toNat + 24) * w := by ring
      have hidx : PY.toNat * w + PX.toNat < 2 ^ 32 :=
        calc PY.toNat * w + PX.toNat
            ≤ (y.toNat + 23) * w + PX.toNat := Nat.add_le_add_right hmul _
          _ < (y.toNat + 23) * w + w := Nat.add_lt_add_left hPXw _
          _ = (y.toNat + 24) * w := hexp
          _ ≤ 2 ^ 32 := hnw
      have hgk : PY.toNat * w + PX.toNat = k := by
        obtain ⟨B, hB2⟩ : ∃ B, B = PY.toNat * w := ⟨_, rfl⟩
        rw [← hB2] at hg hidx ⊢
        omega
      have hkwh : PY.toNat * w + PX.toNat < w * h := by
        rw [hgk]
        omega
      have hPYh : PY.toNat < h := (idx_lt_iff PY.toNat PX.toNat w h hPXw).mp hkwh
      refine ⟨row, hrow, col, e1 ▸ hcol, ?_, dy, hdy, dx, hdx, ?_, ?_, ?_, ?_, ?_⟩
      · rw [e1, e2]
        exact hpix
      · rw [hPXdef] at hA
        exact hA
      · rw [hPXdef] at hC
        exact hC
      · rw [hPYdef] at hB
        exact hB
      · rw [← hPYdef]
        omega
      · rw [← hPXdef, ← hPYdef]
        exact hgk
    · rintro ⟨row, hrow, col, hcol, hink, dy, hdy, dx, hdx, hA, hC, hB, hD, hgk⟩
      have hrowlen : row < cd.length := hrow
      have hln : cd[row]? = some (cd.getD row []) := by
        rw [List.getElem?_eq_getElem hrowlen, List.getD_eq_getElem _ _ hrowlen]
      have hpixln : (cd.getD row [])[col]? = some true := by
        rw [List.getElem?_eq_getElem hcol]
        rw [← List.getD_eq_getElem (cd.getD row []) false hcol, hink]
      have hlnmem : cd.getD row [] ∈ cd := List.getElem?_mem hln
      have h5 : (cd.getD row []).length ≤ 5 := hcd5 _ hlnmem
      have hxeq : cand_px x col dx = x + 3 * (col : Int) + (dx : Int) :=
        cand_px_exact x col dx (by omega) hdx hx1 hx2
      have hyeq : cand_py y row dy = y + 3 * (row : Int) + (dy : Int) :=
        cand_py_exact y row dy (by omega) hdy hy1 hy2
      have hkb : k < b.length := by
        rw [hlen, ← hgk]
        have hPXw : (x + 3 * (col : Int) + (dx : Int)).toNat < w := by omega
        exact (idx_lt_iff _ _ w h hPXw).mpr (by omega)
      refine ⟨⟨(row, col, true, dy, dx), ?_, ?_, ?_⟩, hkb⟩
      · rw [mem_char_candidates]
        exact ⟨cd.getD row [], hln, hpixln, hdy, hdx⟩
      · simp only [cand_q, Bool.and_eq_true, decide_eq_true_eq]
        rw [hxeq, hyeq]
        rw [show u32AsI32 w = (w : Int) from wrap32_eq_self (by omega) hw31]
        exact ⟨trivial, ⟨hA, hB⟩, hC⟩
      · simp only [cand_g]
        rw [hxeq, hyeq]
        have hPXn : 0 ≤ x + 3 * (col : Int) + (dx : Int) := hA
        have hPYle : (y + 3 * (row : Int) + (dy : Int)).toNat ≤ y.toNat + 23 := by
          omega
        have hPXw : (x + 3 * (col : Int) + (dx : Int)).toNat < w := by omega
        have hmul : (y + 3 * (row : Int) + (dy : Int)).toNat * w
            ≤ (y.toNat + 23) * w := Nat.mul_le_mul_right w hPYle
        have hexp : (y.toNat + 23) * w + w = (y.toNat + 24) * w := by ring
        have hidx : (y + 3 * (row : Int) + (dy : Int)).toNat * w +
            (x + 3 * (col : Int) + (dx : Int)).toNat < 2 ^ 32 :=
          calc (y + 3 * (row : Int) + (dy : Int)).toNat * w +
              (x + 3 * (col : Int) + (dx : Int)).toNat
              ≤ (y.toNat + 23) * w + (x + 3 * (col : Int) + (dx : Int)).toNat :=
                Nat.add_le_add_right hmul _
            _ < (y.toNat + 23) * w + w := Nat.add_lt_add_left hPXw _
            _ = (y.toNat + 24) * w := hexp
            _ ≤ 2 ^ 32 := hnw
        obtain ⟨B, hB2⟩ : ∃ B, B = (y + 3 * (row : Int) + (dy : Int)).toNat * w :=
          ⟨_, rfl⟩
        rw [← hB2] at hidx ⊢
        rw [← hB2] at hgk
        omega
  by_cases hcc : glyph_writes x y cd w k ∧ k < b.length
  · rw [if_pos hcc, if_pos (hiff.mp hcc)]
  · rw [if_neg hcc, if_neg (fun hcon => hcc (hiff.mpr hcon))]

/-- C2 witness: the probe glyph drawn at the origin of a 2x2 window
writes white at index 0 (its single in-bounds ink block covers it). -/
theorem C2_bounds_safety_witness :
    (draw_char [0, 0, 0, 0] 0 0 probe_glyph 2 3)[0]? = some 0xFFFFFFFF := by
  rw [(C2_bounds_safety [0, 0, 0, 0] 0 0 probe_glyph 2 2 0 (by decide) (by decide)
    (by decide) (by decide) (by decide) (by decide) (by decide) (by decide)
    (by decide)).2.1]
  rw [if_pos (by decide)]

set_option maxRecDepth 8000 in
/-- C6 counterexample: with monitor 300x300, window 8x4 at position
`(150, -1300)`, the world coordinate of every window pixel is in the
100-pixel boundary zone (world y is far above the monitor top), yet
after the render pixel 6 is white, not green: the off-screen text
(anchored at world `(150, -1300)`) intersects this configuration, so
100% of the pixels are not green. -/
theorem C6_counterexample :
    (∀ x : Fin 8, ∀ y : Fin 4,
      boundary_cond (150 + ((x : Nat) : Int)) (-1300 + ((y : Nat) : Int)) 300 300) ∧
    (redraw (List.replicate 32 0) 8 4 150 (-1300) 300 300)[6]? = some 0xFFFFFFFF := by
  refine ⟨by decide, ?_⟩
  rw [redraw_getElem (List.replicate 32 0) 8 4 150 (-1300) 300 300 (by decide)
    (by decide) (by decide) 6 (by decide)]
  rw [if_pos (by decide)]

/-- C6 amended: for geometries within `i32`/`u32` range, (1) a window
strictly interior to the monitor (at least 100 pixels from every edge)
renders with zero green pixels, and (2) a window with the world
coordinate of every pixel in the 100-pixel boundary zone renders every pixel
green except pixels overwritten by text, which are white — text pixels
can intersect such configurations (the window can sit near the
off-screen anchor), so "100% green" holds only ignoring them. -/
theorem C6_boundary_extremes (b : List Nat) (w h : Nat) (px py : Int)
    (mw mh : Nat)
    (hlen : b.length = w * h) (hw : 0 < w) (hwh : w * h ≤ 2 ^ 32)
    (hpx : -(2 ^ 31) ≤ px) (hpy : -(2 ^ 31) ≤ py)
    (hxw : px + (w : Int) ≤ 2 ^ 31) (hyh : py + (h : Int) ≤ 2 ^ 31)
    (hw31 : (w : Int) ≤ 2 ^ 31) (hh31 : (h : Int) ≤ 2 ^ 31)
    (hmw : (mw : Int) < 2 ^ 31) (hmh : (mh : Int) < 2 ^ 31) :
    (100 ≤ px → px + (w : Int) ≤ (mw : Int) - 100 → 100 ≤ py →
        py + (h : Int) ≤ (mh : Int) - 100 →
        (redraw b w h px py mw mh).count 0xFF00FF00 = 0) ∧
      ((∀ x < w, ∀ y < h,
          boundary_cond (px + (x : Int)) (py + (y : Int)) mw mh) →
        ∀ c ∈ redraw b w h px py mw mh, c = 0xFF00FF00 ∨ c = 0xFFFFFFFF) := by
  constructor
  · intro h1 h2 h3 h4
    rw [List.count_eq_zero]
    intro hmem
    obtain ⟨k, hk⟩ := List.mem_iff_getElem?.mp hmem
    have hkl : k < (redraw b w h px py mw mh).length := by
      by_contra hcon
      rw [List.getElem?_eq_none (Nat.le_of_not_lt hcon)] at hk
      exact Option.noConfusion hk
    rw [redraw_len, hlen] at hkl
    rw [redraw_getElem b w h px py mw mh hlen hw hwh k hkl] at hk
    split at hk
    · exact absurd (Option.some.inj hk) (by decide)
    · split at hk
      case isTrue hg =>
        obtain ⟨r, hr⟩ : ∃ r, r = k % w := ⟨_, rfl⟩
        obtain ⟨q, hq⟩ : ∃ q, q = k / w := ⟨_, rfl⟩
        have hxk : r < w := hr ▸ Nat.mod_lt _ hw
        have hyk : q < h := hq ▸ Nat.div_lt_of_lt_mul hkl
        rw [← hr, ← hq] at hg
        have hb := (green_cond_eq_boundary px py mw mh w h r q
          hxk hyk hpx hpy hxw hyh hw31 hh31 hmw hmh).mp hg
        unfold boundary_cond at hb
        rcases hb with hcase | hcase | hcase | hcase <;> omega
      case isFalse =>
        exact absurd (Option.some.inj hk) (by decide)
  · intro hall c hc
    obtain ⟨k, hk⟩ := List.mem_iff_getElem?.mp hc
    have hkl : k < (redraw b w h px py mw mh).length := by
      by_contra hcon
      rw [List.getElem?_eq_none (Nat.le_of_not_lt hcon)] at hk
      exact Option.noConfusion hk
    rw [redraw_len, hlen] at hkl
    rw [redraw_getElem b w h px py mw mh hlen hw hwh k hkl] at hk
    split at hk
    · exact Or.inr (Option.some.inj hk).symm
    · split at hk
      case isTrue => exact Or.inl (Option.some.inj hk).symm
      case isFalse hg =>
        exfalso
        have hxk : k % w < w := Nat.mod_lt _ hw
        have hyk : k / w < h := Nat.div_lt_of_lt_mul hkl
        exact hg ((green_cond_eq_boundary px py mw mh w h (k % w) (k / w)
          hxk hyk hpx hpy hxw hyh hw31 hh31 hmw hmh).mpr
          (hall (k % w) hxk (k / w) hyk))

/-- C6 witness: a 2x2 window at interior position `(500, 500)` of a
1920x1080 monitor renders with zero green pixels. -/
theorem C6_boundary_extremes_witness :
    (redraw [0, 0, 0, 0] 2 2 500 500 1920 1080).count 0xFF00FF00 = 0 :=
  (C6_boundary_extremes [0, 0, 0, 0] 2 2 500 500 1920 1080 (by decide) (by decide)
    (by decide) (by decide) (by decide) (by decide) (by decide) (by decide)
    (by decide) (by decide) (by decide)).1 (by decide) (by decide) (by decide)
    (by decide)

set_option maxRecDepth 8000 in
/-- C1 counterexample: with monitor 1920x1080, window 4x4 at position
`(964, -1073743904)`, the window pixel `(2, 0)` satisfies a boundary
condition (world y far above the top edge) and no text glyph pixel
covers it (the exact candidate rows of the message sit near window-local
y = 2^30), yet the rendered pixel is white, not green: the `u32` index
computation of the glyph pass wraps modulo `2^32` into the buffer. -/
theorem C1_counterexample :
    boundary_cond (964 + 2) (-1073743904 + 0) 1920 1080 ∧
    ¬ covers_pixel ((1920 : Int) / 2 - 964) (-(1080 : Int) - 1000 - (-1073743904)) 2 0 ∧
    (redraw (List.replicate 16 0) 4 4 964 (-1073743904) 1920 1080)[2]? =
      some 0xFFFFFFFF := by
  refine ⟨by decide, by decide, ?_⟩
  rw [redraw_getElem (List.replicate 16 0) 4 4 964 (-1073743904) 1920 1080
    (by decide) (by decide) (by decide) 2 (by decide)]
  rw [if_pos (by decide)]

/-- C1 amended: for geometries within `i32`/`u32` range and positions
where the glyph index computation cannot overflow `u32` (which excludes
only windows about `2^32 / width` pixels below the hidden-text anchor),
the rendered pixel at window-local `(x, y)` is green `0xFF00FF00` iff
its world coordinate `(px + x, py + y)` satisfies at least one of the
four boundary conditions and no text glyph pixel covers `(x, y)`;
pixels meeting several conditions at once get the same single green
value, since the overlay writes one fixed color. -/
theorem C1_green_iff (b : List Nat) (w h : Nat) (px py : Int) (mw mh : Nat)
    (hlen : b.length = w * h) (hw : 0 < w) (hwh : w * h ≤ 2 ^ 32)
    (hpx : -(2 ^ 31) ≤ px) (hpx2 : px < 2 ^ 31)
    (hpy : -(2 ^ 31) ≤ py) (hpy2 : py < 2 ^ 31)
    (hxw : px + (w : Int) ≤ 2 ^ 31) (hyh : py + (h : Int) ≤ 2 ^ 31)
    (hw31 : (w : Int) < 2 ^ 31) (hh31 : (h : Int) ≤ 2 ^ 31)
    (hmw : (mw : Int) < 2 ^ 31) (hmh : (mh : Int) + 1000 ≤ 2 ^ 31)
    (htx : (mw : Int) / 2 - px + 512 ≤ 2 ^ 31)
    (hty : -(2 ^ 31) ≤ -(mh : Int) - 1000 - py)
    (hnw : ((-(mh : Int) - 1000 - py).toNat + 24) * w ≤ 2 ^ 32)
    (x y : Nat) (hx : x < w) (hy : y < h) :
    (redraw b w h px py mw mh)[y * w + x]? = some 0xFF00FF00 ↔
      boundary_cond (px + (x : Int)) (py + (y : Int)) mw mh ∧
        ¬ covers_pixel ((mw : Int) / 2 - px) (-(mh : Int) - 1000 - py) x y := by
  have hk : y * w + x < w * h := by
    have := (idx_lt_iff y x w h hx).mpr hy
    omega
  rw [redraw_getElem b w h px py mw mh hlen hw hwh _ hk]
  have hmod : (y * w + x) % w = x := by
    rw [Nat.add_comm, Nat.add_mul_mod_self_right, Nat.mod_eq_of_lt hx]
  have hdiv : (y * w + x) / w = y := by
    rw [Nat.mul_comm, Nat.mul_add_div hw, Nat.div_eq_of_lt hx, Nat.add_zero]
  rw [hmod, hdiv]
  have hto := text_origin_exact px py mw mh hpx2 hpy hpy2 hmw hmh (by omega) hty
  rw [hto]
  dsimp only
  have hcov := text_writes_iff_covers w h ((mw : Int) / 2 - px)
    (-(mh : Int) - 1000 - py) (y * w + x) hw hw31 hwh hk (by omega) (by omega)
    hty (by omega) hnw
  rw [hmod, hdiv] at hcov
  have hww : (w : Int) ≤ 2 ^ 31 := le_of_lt hw31
  have hmh31 : (mh : Int) < 2 ^ 31 := by omega
  have hgb := green_cond_eq_boundary px py mw mh w h x y hx hy hpx hpy hxw hyh
    hww hh31 hmw hmh31
  by_cases ht : text_writes ((mw : Int) / 2 - px) (-(mh : Int) - 1000 - py) w
      (y * w + x)
  · rw [if_pos ht]
    constructor
    · intro hcon
      exact absurd (Option.some.inj hcon) (by decide)
    · rintro ⟨hbc, hnc⟩
      exact absurd (hcov.mp ht) hnc
  · rw [if_neg ht]
    by_cases hg : green_cond px py mw mh x y = true
    · rw [if_pos hg]
      constructor
      · intro _
        exact ⟨hgb.mp hg, fun hc => ht (hcov.mpr hc)⟩
      · intro _
        rfl
    · rw [if_neg hg]
      constructor
      · intro hcon
        exact absurd (Option.some.inj hcon) (by decide)
      · rintro ⟨hbc, _⟩
        exact absurd (hgb.mpr hbc) hg

set_option maxRecDepth 8000 in
/-- C1 witness: the top-left pixel of a 2x2 window at position `(0, 0)`
on a 1920x1080 monitor: it is in the boundary zone, no text covers it,
and it renders green. -/
theorem C1_green_iff_witness :
    ((redraw (List.replicate 4 0) 2 2 0 0 1920 1080)[0 * 2 + 0]? =
        some 0xFF00FF00 ↔
      boundary_cond (0 + ((0 : Nat) : Int)) (0 + ((0 : Nat) : Int)) 1920 1080 ∧
        ¬ covers_pixel ((1920 : Int) / 2 - 0) (-(1080 : Int) - 1000 - 0) 0 0) :=
  C1_green_iff (List.replicate 4 0) 2 2 0 0 1920 1080 (by decide) (by decide)
    (by decide) (by decide) (by decide) (by decide) (by decide) (by decide)
    (by decide) (by decide) (by decide) (by decide) (by decide) (by decide)
    (by decide) (by decide) 0 0 (by decide) (by decide)
